import Mathlib

/-!
Verification development for the OpenManus event-driven orchestration core.

This file gives a shallow embedding, in Lean 4, of the parts of the
repository that the checked claims are about:

* `app/event/types.py` — the `EventStatus` and `EventPriority` enumerations;
* `app/event/bus.py` — the `EventBus` (publish, subscribe, unsubscribe,
  `_process_event`, shutdown);
* `app/database/persistence.py` — `EventPersistence.store_event`,
  `get_event` and the record/event conversions;
* `app/database/tracker.py` — `EventTracker.track_event_relations`,
  `_find_root_event` and `get_event_chain`;
* `app/event/manager.py` — `EventBusManager.publish`;
* `app/agent/base.py` — `BaseAgent.run`, `state_context`, `is_stuck`,
  `handle_stuck_state`, `interrupt`, `reset_interrupt`.

Machine-level effects (logging, the database connection, the asyncio event
loop) are modelled as follows: the database is an explicit list of flat
records threaded through the functions; cooperative scheduling is modelled
by a logical tick counter that advances at each `await` point, and an
external one-way interrupt signal `intr : Nat → Bool` records at which
ticks a call to `interrupt()` has already happened.  Fallible code returns
`Except`/`Bool` exactly where the source raises or returns a status flag.

The base classes of the event system (`app/event/base.py`: `BaseEvent`,
`BaseEventHandler`, `BaseEventBus`) are referenced by the repository but
the file itself is not part of the provided sources; the handful of
methods the claims depend on (`mark_completed`, `mark_failed`,
`get_handlers_for_event`, `safe_handle`, `add_to_history`) are modelled
from the specification and marked as such in their doc comments.
-/

/-- `EventStatus` from `app/event/types.py`. -/
inductive EventStatus where
  | PENDING
  | PROCESSING
  | COMPLETED
  | FAILED
  | CANCELLED
deriving Repr, DecidableEq

/-- `EventPriority` from `app/event/types.py`. -/
inductive EventPriority where
  | LOW
  | NORMAL
  | HIGH
  | CRITICAL
deriving Repr, DecidableEq

/-- The event record (`BaseEvent` of the event system).  Fields follow the
data model: identity, taxonomy type, timestamp (modelled as a natural
number), source, correlation keys, opaque payloads, status, lineage and
processing bookkeeping.  Optional fields are `Option String`, matching the
Python `None` defaults. -/
structure Event where
  event_id : String
  event_type : String
  timestamp : Nat
  source : Option String := none
  conversation_id : Option String := none
  user_id : Option String := none
  session_id : Option String := none
  data : List (String × String) := []
  metadata : List (String × String) := []
  status : EventStatus := EventStatus.PENDING
  priority : EventPriority := EventPriority.NORMAL
  parent_events : List String := []
  root_event_id : Option String := none
  processed_by : List String := []
  error_message : Option String := none
deriving Repr, DecidableEq

/-- Modelled from the spec: `BaseEvent.mark_completed` of the missing
`app/event/base.py` sets the terminal status `completed`. -/
def markCompleted (e : Event) : Event :=
  { e with status := EventStatus.COMPLETED }

/-- Modelled from the spec: `BaseEvent.mark_failed` of the missing
`app/event/base.py` sets the terminal status `failed` and records the
retrievable error message. -/
def markFailed (msg : String) (e : Event) : Event :=
  { e with status := EventStatus.FAILED, error_message := some msg }

/-- The flat persistence record built by `EventPersistence.store_event`
(`app/database/persistence.py`, the `EventModel(...)` construction at
lines 42-57).  `metadata_` keeps the column name used by the model. -/
structure Record where
  id : String
  event_type : String
  source : Option String
  conversation_id : Option String
  user_id : Option String
  session_id : Option String
  timestamp : Nat
  parent_events : List String
  root_event_id : Option String
  data : List (String × String)
  metadata_ : List (String × String)
  status : EventStatus
  processed_by : List String
  error_message : Option String
deriving Repr, DecidableEq

/-- Projection of an event to its stored record, following the
`EventModel(...)` field list in `store_event` (persistence.py lines
42-57).  Note that `priority` is not stored. -/
def toRecord (e : Event) : Record :=
  { id := e.event_id
    event_type := e.event_type
    source := e.source
    conversation_id := e.conversation_id
    user_id := e.user_id
    session_id := e.session_id
    timestamp := e.timestamp
    parent_events := e.parent_events
    root_event_id := e.root_event_id
    data := e.data
    metadata_ := e.metadata
    status := e.status
    processed_by := e.processed_by
    error_message := e.error_message }

/-- Python truthiness of an optional string: `None` and the empty string
are falsy.  Used by `_model_to_event`, which only sets an optional field
when the stored column is truthy. -/
def truthyOpt : Option String → Option String
  | none => none
  | some s => if s = "" then none else some s

/-- `EventPersistence._model_to_event` (persistence.py lines 245-281):
converts a stored record back to an event.  Base fields are copied
directly; the correlation keys, `parent_events` and `root_event_id` are
set only when truthy (an empty column leaves the default).  `priority`
is not stored, so conversion yields the default priority. -/
def modelToEvent (r : Record) : Event :=
  { event_id := r.id
    event_type := r.event_type
    timestamp := r.timestamp
    source := r.source
    conversation_id := truthyOpt r.conversation_id
    user_id := truthyOpt r.user_id
    session_id := truthyOpt r.session_id
    data := r.data
    metadata := r.metadata_
    status := r.status
    priority := EventPriority.NORMAL
    parent_events := r.parent_events
    root_event_id := truthyOpt r.root_event_id
    processed_by := r.processed_by
    error_message := r.error_message }

/-- The relational store, modelled as the list of committed records with
the most recent insertion first.  The `id` column carries a UNIQUE
constraint (duplicate inserts make `commit` raise). -/
def hasRecord (db : List Record) (id : String) : Bool :=
  db.any (fun r => r.id == id)

/-- `EventPersistence.store_event` (persistence.py lines 25-90): projects
the event to a flat record and commits it.  A commit that violates the
UNIQUE constraint on `id` is rolled back and reported as success — the
write is an idempotent upsert (lines 65-74).  Returns the success flag and
the resulting store. -/
def storeEvent (e : Event) (db : List Record) : Bool × List Record :=
  if hasRecord db e.event_id then
    (true, db)
  else
    (true, toRecord e :: db)

/-- Row lookup by primary key, as issued by `get_event`. -/
def getRecord (db : List Record) (id : String) : Option Record :=
  db.find? (fun r => r.id == id)

/-- `EventPersistence.get_event` (persistence.py lines 92-119): fetch the
record with the given id and convert it; not-found returns `none`. -/
def getEventP (db : List Record) (id : String) : Option Event :=
  (getRecord db id).map modelToEvent

/-- The traversal loop of `EventTracker._find_root_event` (tracker.py
lines 163-193).  `visited` is the cycle guard; the loop runs while the
current id is truthy and unvisited.  A found event with a truthy
`root_event_id` resolves immediately; an event with parents moves to its
first parent; otherwise the current id is the root.  The Python loop
terminates because each pass adds a distinct stored id to `visited`; the
fuel argument makes that bound explicit. -/
def findRootGo (db : List Record) : Nat → List String → String → String
  | 0, _, cur => cur
  | fuel + 1, visited, cur =>
    if cur = "" then cur
    else if cur ∈ visited then cur
    else
      match getEventP db cur with
      | none => cur
      | some ev =>
        match ev.root_event_id with
        | some r => r
        | none =>
          match ev.parent_events with
          | [] => cur
          | p :: _ => findRootGo db fuel (cur :: visited) p

/-- `EventTracker._find_root_event` (tracker.py lines 163-193).  One unit
of fuel per stored record plus one suffices: every loop pass that recurses
has found its id in the store and added it to the visited set. -/
def findRootEvent (db : List Record) (event_id : String) : String :=
  findRootGo db (db.length + 1) [] event_id

/-- `EventTracker.track_event_relations` (tracker.py lines 19-46).  A
parentless event becomes its own root; otherwise the root is resolved
through the first parent, and when the resolution comes back falsy the
first parent id itself becomes the root. -/
def trackEventRelations (db : List Record) (e : Event) : Event :=
  match e.parent_events with
  | [] => { e with root_event_id := some e.event_id }
  | p :: _ =>
    let r := findRootEvent db p
    if r = "" then { e with root_event_id := some p }
    else { e with root_event_id := some r }

/-- Stable insertion into a timestamp-sorted list: the new element goes
after every element with a timestamp less than or equal to its own. -/
def insertByTime (x : Event) : List Event → List Event
  | [] => [x]
  | y :: ys =>
    if y.timestamp ≤ x.timestamp then y :: insertByTime x ys
    else x :: y :: ys

/-- `EventTracker._build_event_chain` (tracker.py lines 239-249): sort the
events of one chain chronologically (a stable sort, like the Python
`sorted` with a timestamp key). -/
def buildEventChain : List Event → List Event
  | [] => []
  | x :: xs => insertByTime x (buildEventChain xs)

/-- `EventTracker.get_event_chain` (tracker.py lines 48-96): look the
event up, take its root (falling back to the queried id when the root is
unset), select every stored record whose `root_event_id` equals that root
or whose `id` is the root itself, convert, and order by timestamp. -/
def getEventChain (event_id : String) (db : List Record) : List Event :=
  match getEventP db event_id with
  | none => []
  | some ev =>
    let root := ev.root_event_id.getD event_id
    let models := db.filter (fun m => m.root_event_id == some root || m.id == root)
    buildEventChain (models.map modelToEvent)

/-- A registered handler.  Fields follow the data model of the spec
(`name`, `supported_events`, advisory `priority`, `enabled`); the concrete
class lives in the missing `app/event/base.py`. -/
structure Handler where
  name : String
  supported_events : List String
  priority : Nat := 0
  enabled : Bool := true
deriving Repr, DecidableEq

/-- Modelled from the spec: the matching predicate used by
`BaseEventBus.get_handlers_for_event` of the missing `app/event/base.py`.
A handler matches when it is enabled and its `supported_events` name the
type exactly, contain the wildcard `all`, or are empty (meaning all). -/
def canHandle (h : Handler) (e : Event) : Bool :=
  h.enabled &&
    (h.supported_events.isEmpty ||
     h.supported_events.contains "all" ||
     h.supported_events.contains e.event_type)

/-- The outcome `asyncio.gather(..., return_exceptions=True)` collects for
one handler: `safe_handle` either returned a boolean or raised, and a
raise is captured as a value instead of aborting the siblings. -/
inductive HandlerOutcome where
  | returned (b : Bool)
  | raised
deriving Repr, DecidableEq

/-- The bus state of `EventBus` (`app/event/bus.py`): registered handlers
(a dict keyed by name), the active set, the bounded history, the shutdown
flag, and the dispatch queue of events handed to `_process_event` tasks
by `publish`. -/
structure BusState where
  handlers : List Handler := []
  active_events : List (String × Event) := []
  event_history : List Event := []
  max_history : Nat := 1000
  max_concurrent_events : Nat := 10
  shutdownFlag : Bool := false
  scheduled : List Event := []
deriving Repr, DecidableEq

/-- Modelled from the spec: `BaseEventBus.get_handlers_for_event` of the
missing `app/event/base.py` selects all registered handlers matching the
event type. -/
def handlersForEvent (s : BusState) (e : Event) : List Handler :=
  s.handlers.filter (fun h => canHandle h e)

/-- Modelled from the spec: `BaseEventBus.add_to_history` of the missing
`app/event/base.py` appends to a bounded ring, trimming the oldest entries
beyond `max_history`. -/
def addToHistory (e : Event) (s : BusState) : BusState :=
  let h := s.event_history ++ [e]
  { s with event_history := h.drop (h.length - s.max_history) }

/-- `EventBus.publish` (bus.py lines 24-51): a bus that is shutting down
rejects the event with `false`; otherwise the event enters the active set
and a `_process_event` task is scheduled, and the caller gets `true`. -/
def publishBus (e : Event) (s : BusState) : Bool × BusState :=
  if s.shutdownFlag then
    (false, s)
  else
    (true, { s with
      active_events := (e.event_id, e) :: s.active_events
      scheduled := s.scheduled ++ [e] })

/-- `EventBus.subscribe` (bus.py lines 53-73): registering by name, where
an existing name is replaced with a warning, never an error. -/
def subscribeBus (h : Handler) (s : BusState) : Bool × BusState :=
  (true, { s with handlers := (s.handlers.filter (fun g => g.name ≠ h.name)) ++ [h] })

/-- `EventBus.unsubscribe` (bus.py lines 75-96): deregistering by name;
an unknown name returns `false`. -/
def unsubscribeBus (name : String) (s : BusState) : Bool × BusState :=
  if s.handlers.any (fun g => g.name == name) then
    (true, { s with handlers := s.handlers.filter (fun g => g.name ≠ name) })
  else
    (false, s)

/-- Result of `_process_event`: the event with its terminal status, the
list of handlers actually invoked, and the bus afterwards. -/
structure ProcessOut where
  event : Event
  invoked : List Handler
  bus : BusState
deriving Repr

/-- `EventBus._process_event` (bus.py lines 98-143).  `behave` gives each
handler invocation outcome by handler name.  With no compatible handler
the event is marked completed trivially.  Otherwise every matched handler
is invoked and its outcome collected independently (`asyncio.gather` with
`return_exceptions=True`); the event completes if at least one outcome is
`True`, else it is marked failed.  Finally the event leaves the active set
and enters the history. -/
def processEvent (behave : String → HandlerOutcome) (e : Event) (s : BusState) : ProcessOut :=
  let hs := handlersForEvent s e
  let finish (ev : Event) : BusState :=
    addToHistory ev { s with active_events := s.active_events.filter (fun p => p.1 ≠ e.event_id) }
  match hs with
  | [] =>
    let ev := markCompleted e
    { event := ev, invoked := [], bus := finish ev }
  | _ :: _ =>
    let results := hs.map (fun h => behave h.name)
    let successCount := results.countP (fun r => r == HandlerOutcome.returned true)
    let ev :=
      if 0 < successCount then markCompleted e
      else markFailed "No handlers processed the event successfully" e
    { event := ev, invoked := hs, bus := finish ev }

/-- `EventBus.shutdown` (bus.py lines 145-158): sets the shutdown flag so
that no further event is admitted (the drain wait changes no state). -/
def shutdownBus (s : BusState) : BusState :=
  { s with shutdownFlag := true }

/-- The state of the singleton `EventBusManager` (`app/event/manager.py`):
the initialization flag, whether persistence and tracking were enabled,
the bus, and the persistence store the tracker also reads from. -/
structure ManagerState where
  initialized : Bool := false
  hasTracker : Bool := false
  hasPersistence : Bool := false
  bus : BusState := {}
  store : List Record := []
deriving Repr

/-- `EventBusManager.publish` (manager.py lines 66-83): a manager that is
not initialized skips publication with `false`; otherwise lineage is
tracked first when the tracker is available, then the event goes to the
bus, and only when the bus admitted it and persistence is available is it
stored, best effort. -/
def managerPublish (e : Event) (m : ManagerState) : Bool × ManagerState :=
  if !m.initialized then
    (false, m)
  else
    let e1 := if m.hasTracker then trackEventRelations m.store e else e
    let (res, bus1) := publishBus e1 m.bus
    let store1 := if m.hasPersistence && res then (storeEvent e1 m.store).2 else m.store
    (res, { m with bus := bus1, store := store1 })

/-- `AgentState` of `app/schema.py` as used by `BaseAgent`: the states the
spec names for the execution loop. -/
inductive AgentState where
  | IDLE
  | RUNNING
  | FINISHED
  | ERROR
deriving Repr, DecidableEq

/-- One entry of the agent memory (`Memory` of `app/schema.py`): the role
of the author and the textual content. -/
structure Msg where
  role : String
  content : String
deriving Repr, DecidableEq

/-- The mutable fields of `BaseAgent` (`app/agent/base.py`) that the
execution loop reads and writes. -/
structure AgentS where
  name : String := "agent"
  state : AgentState := AgentState.IDLE
  current_step : Nat := 0
  max_steps : Nat := 10
  interrupted : Bool := false
  conversation_id : Option String := none
  memory : List Msg := []
  next_step_prompt : Option String := none
  duplicate_threshold : Nat := 2
deriving Repr, DecidableEq

/-- `BaseAgent.update_memory` for the user role (base.py lines 91-121):
append a user message. -/
def updateMemoryUser (content : String) (a : AgentS) : AgentS :=
  { a with memory := a.memory ++ [{ role := "user", content := content }] }

/-- `BaseAgent.is_stuck` (base.py lines 230-246): with fewer than two
messages, or an empty last content, the agent is not stuck; otherwise the
occurrences of the last content among the earlier assistant messages are
counted against `duplicate_threshold`. -/
def isStuck (a : AgentS) : Bool :=
  if a.memory.length < 2 then false
  else
    match a.memory.getLast? with
    | none => false
    | some last =>
      if last.content = "" then false
      else
        let dup := a.memory.dropLast.countP
          (fun m => m.role == "assistant" && m.content == last.content)
        a.duplicate_threshold ≤ dup

/-- The corrective instruction of `BaseAgent.handle_stuck_state` (base.py
lines 223-228); the line continuation in the source keeps the leading
indentation inside the literal. -/
def stuckPrompt : String :=
  "        Observed duplicate responses. Consider new strategies and avoid repeating ineffective paths already attempted."

/-- Rendering of an optional string inside a Python f-string: `None`
prints as the text `None`. -/
def pyOptStr : Option String → String
  | none => "None"
  | some s => s

/-- `BaseAgent.handle_stuck_state` (base.py lines 223-228): prepend the
corrective instruction to the next-step prompt. -/
def handleStuckState (a : AgentS) : AgentS :=
  { a with next_step_prompt := some (stuckPrompt ++ "\n" ++ pyOptStr a.next_step_prompt) }

/-- `BaseAgent.interrupt` (base.py lines 289-292): set the one-way latch. -/
def interruptAgent (a : AgentS) : AgentS :=
  { a with interrupted := true }

/-- `BaseAgent.reset_interrupt` (base.py lines 294-297): the only
operation that clears the latch. -/
def resetInterrupt (a : AgentS) : AgentS :=
  { a with interrupted := false }

/-- The effect, on the latch, of the environment up to logical tick `t`:
an `interrupt()` call (or a polled `conversation.interrupt` event inside
`_check_interrupt`, base.py lines 248-287) can run at any `await` point,
so at each such point the field absorbs the external signal `intr`. -/
def absorb (intr : Nat → Bool) (t : Nat) (a : AgentS) : AgentS :=
  { a with interrupted := a.interrupted || intr t }

/-- A concrete `step()` implementation (base.py lines 216-221): from the
agent it either raises (left) or returns the textual step result together
with the `state` field value it leaves behind — the one agent field the
loop lets a step change (reaching `FINISHED` is how a step ends the
loop). -/
def StepFn : Type :=
  AgentS → Except String (String × AgentState)

/-- What one run of the step loop of `BaseAgent.run` (base.py lines
150-192) produces: the normal or exceptional outcome, the agent
afterwards, the accumulated result lines, a log of the executed `step()`
calls as (tick, step number) pairs, every value assigned to
`current_step`, every value a step assigned to `state`, and the first
tick not consumed inside the loop. -/
structure LoopOut where
  res : Except String Unit
  agent : AgentS
  results : List String
  stepLog : List (Nat × Nat)
  stepTrace : List Nat
  stateLog : List AgentState
  tickEnd : Nat
deriving Repr

/-- The agent at the pre-step interrupt check of one loop iteration
(base.py lines 155-162): the step counter is incremented, and the
`_check_interrupt` await at tick `t` absorbs the external latch. -/
def preAgent (intr : Nat → Bool) (t : Nat) (a : AgentS) : AgentS :=
  absorb intr t { a with current_step := a.current_step + 1 }

/-- The agent as seen by `step()` (base.py lines 164-168): after the
step-start publish await at tick `t + 1` and the `step()` await at tick
`t + 2`, both absorbing the external latch. -/
def duringStep (intr : Nat → Bool) (t : Nat) (a2 : AgentS) : AgentS :=
  absorb intr (t + 2) (absorb intr (t + 1) a2)

/-- The agent at the post-step interrupt check (base.py lines 170-174):
`step()` left `newState` in the state field, and the check await at tick
`t + 3` absorbs the external latch. -/
def postStep (intr : Nat → Bool) (t : Nat) (a2 : AgentS) (newState : AgentState) : AgentS :=
  absorb intr (t + 3) { duringStep intr t a2 with state := newState }

/-- Stuck detection at the end of an iteration (base.py lines 179-181). -/
def stuckAdjust (b : AgentS) : AgentS :=
  if isStuck b then handleStuckState b else b

/-- The `while` loop of `BaseAgent.run` (base.py lines 150-192).  Each
iteration: increment the step counter; interrupt check (tick `t`, break
with an interruption line when the latch is up); publish the step-start
signal (tick `t + 1`); run `step()` (tick `t + 2`, an exception publishes
an error signal at tick `t + 3` and propagates); interrupt check (tick
`t + 3`, break when the latch is up); publish the step-complete signal
(tick `t + 4`); stuck detection; append the step line.  The fuel is
`max_steps - current_step`, which the loop condition keeps positive. -/
def runLoop (stepFn : StepFn) (intr : Nat → Bool) :
    Nat → Nat → AgentS → LoopOut
  | 0, t, a => { res := Except.ok (), agent := a, results := [], stepLog := [],
                 stepTrace := [], stateLog := [], tickEnd := t }
  | fuel + 1, t, a =>
    if a.current_step < a.max_steps ∧ a.state ≠ AgentState.FINISHED ∧ a.interrupted = false then
      let n := a.current_step + 1
      let a2 := preAgent intr t a
      if a2.interrupted then
        { res := Except.ok (), agent := a2,
          results := ["Interrupted at step " ++ toString n],
          stepLog := [], stepTrace := [n], stateLog := [], tickEnd := t + 1 }
      else
        match stepFn (duringStep intr t a2) with
        | Except.error msg =>
          { res := Except.error msg, agent := absorb intr (t + 3) (duringStep intr t a2),
            results := [],
            stepLog := [(t + 2, n)], stepTrace := [n], stateLog := [], tickEnd := t + 4 }
        | Except.ok (text, newState) =>
          let a5 := postStep intr t a2 newState
          if a5.interrupted then
            { res := Except.ok (), agent := a5,
              results := ["Interrupted after step " ++ toString n],
              stepLog := [(t + 2, n)], stepTrace := [n], stateLog := [newState],
              tickEnd := t + 4 }
          else
            let a7 := stuckAdjust (absorb intr (t + 4) a5)
            let line := "Step " ++ toString n ++ ": " ++ text
            let rest := runLoop stepFn intr fuel (t + 5) a7
            { res := rest.res, agent := rest.agent,
              results := line :: rest.results,
              stepLog := (t + 2, n) :: rest.stepLog,
              stepTrace := n :: rest.stepTrace,
              stateLog := newState :: rest.stateLog,
              tickEnd := rest.tickEnd }
    else
      { res := Except.ok (), agent := a, results := [], stepLog := [],
        stepTrace := [], stateLog := [], tickEnd := t }

/-- How a completed `run()` left the loop, read off the branch the code
after the loop took (base.py lines 194-201): the interrupted branch, the
step-budget branch, or neither (state `FINISHED` with budget left); plus
the two exceptional terminations. -/
inductive ExitKind where
  | invalidState
  | raised
  | interruptedExit
  | budget
  | finishedEarly
deriving Repr, DecidableEq

/-- Everything `BaseAgent.run` produces in the model: the summary string
or the propagated exception, the agent after `run()` terminates, the
result lines, the step log and counter trace of the loop, the ordered
list of every assignment to the `state` field, the exit kind, and the
first tick after the loop. -/
structure RunOut where
  res : Except String String
  agent : AgentS
  results : List String
  stepLog : List (Nat × Nat)
  stepTrace : List Nat
  stateTrace : List AgentState
  exit : ExitKind
  tickEnd : Nat
deriving Repr

/-- The summary `run()` returns (base.py line 214). -/
def mkSummary (results : List String) : String :=
  if results.isEmpty then "No steps executed" else String.intercalate "\n" results

/-- The pre-loop setup of `run()` (base.py lines 139-144): store the
conversation id and add the user request to memory, each only when
truthy. -/
def setupAgent (request conversation_id : Option String) (a : AgentS) : AgentS :=
  let a0 := match conversation_id with
    | some c => if c = "" then a else { a with conversation_id := some c }
    | none => a
  match request with
  | some r => if r = "" then a0 else updateMemoryUser r a0
  | none => a0

/-- The loop run started by `run()`: the agent after setup enters
`RUNNING` and the loop starts at tick 0 with fuel
`max_steps - current_step`. -/
def runMain (stepFn : StepFn) (intr : Nat → Bool)
    (request conversation_id : Option String) (a : AgentS) : LoopOut :=
  runLoop stepFn intr
    ((setupAgent request conversation_id a).max_steps -
      (setupAgent request conversation_id a).current_step)
    0
    { setupAgent request conversation_id a with state := AgentState.RUNNING }

/-- `BaseAgent.run` (base.py lines 123-214), with the scope of
`state_context` (base.py lines 65-89) inlined.  A non-`IDLE` start raises.
Otherwise: run the setup, remember the previous state, enter `RUNNING`
and run the loop.  On a step exception the except-branch of the scope
assigns `ERROR` and the finally branch then assigns the previous state
back before the exception leaves `run()` (both assignments appear in
`stateTrace`).  On normal loop exit the interrupted branch or the
step-budget branch resets the counter and the state with their trailing
lines, and the scope finally-branch restores the previous state. -/
def runAgent (stepFn : StepFn) (intr : Nat → Bool)
    (request : Option String) (conversation_id : Option String) (a : AgentS) : RunOut :=
  if a.state ≠ AgentState.IDLE then
    { res := Except.error "Cannot run agent from state: not IDLE", agent := a,
      results := [], stepLog := [], stepTrace := [], stateTrace := [],
      exit := ExitKind.invalidState, tickEnd := 0 }
  else
    let prev := (setupAgent request conversation_id a).state
    let L := runMain stepFn intr request conversation_id a
    match L.res with
    | Except.error msg =>
      { res := Except.error msg, agent := { L.agent with state := prev },
        results := L.results, stepLog := L.stepLog, stepTrace := L.stepTrace,
        stateTrace := (AgentState.RUNNING :: L.stateLog) ++ [AgentState.ERROR, prev],
        exit := ExitKind.raised, tickEnd := L.tickEnd }
    | Except.ok _ =>
      let aL := L.agent
      if aL.interrupted then
        let aD := { aL with state := AgentState.IDLE, current_step := 0 }
        let results := L.results ++ ["Execution interrupted by user"]
        { res := Except.ok (mkSummary results), agent := { aD with state := prev },
          results := results, stepLog := L.stepLog, stepTrace := L.stepTrace ++ [0],
          stateTrace := (AgentState.RUNNING :: L.stateLog) ++ [AgentState.IDLE, prev],
          exit := ExitKind.interruptedExit, tickEnd := L.tickEnd }
      else if aL.max_steps ≤ aL.current_step then
        let aD := { aL with current_step := 0, state := AgentState.IDLE }
        let results := L.results ++ ["Terminated: Reached max steps (" ++ toString aL.max_steps ++ ")"]
        { res := Except.ok (mkSummary results), agent := { aD with state := prev },
          results := results, stepLog := L.stepLog, stepTrace := L.stepTrace ++ [0],
          stateTrace := (AgentState.RUNNING :: L.stateLog) ++ [AgentState.IDLE, prev],
          exit := ExitKind.budget, tickEnd := L.tickEnd }
      else
        { res := Except.ok (mkSummary L.results), agent := { aL with state := prev },
          results := L.results, stepLog := L.stepLog, stepTrace := L.stepTrace,
          stateTrace := (AgentState.RUNNING :: L.stateLog) ++ [prev],
          exit := ExitKind.finishedEarly, tickEnd := L.tickEnd }

/-- Witness fixture: a fresh user-input event. -/
def wEvent1 : Event :=
  { event_id := "e1", event_type := "conversation.userinput", timestamp := 1 }

/-- Witness fixture: a redelivery of `wEvent1` (same identity, later
timestamp). -/
def wEvent2 : Event :=
  { event_id := "e1", event_type := "conversation.userinput", timestamp := 2,
    data := [("content", "again")] }

/-- Witness fixture: a parentless root event. -/
def wParent : Event :=
  { event_id := "p1", event_type := "conversation.userinput", timestamp := 0 }

/-- Witness fixture: a child event referring to `wParent`. -/
def wChild : Event :=
  { event_id := "c1", event_type := "agent.step.start", timestamp := 3,
    parent_events := ["p1"] }

/-- Witness fixture: a wildcard handler. -/
def wHandler : Handler :=
  { name := "logging_handler", supported_events := ["all"] }

/-- Witness fixture: a bus with the wildcard handler registered. -/
def wBus : BusState :=
  { handlers := [wHandler] }

/-- Witness fixture: an initialized manager with persistence and
tracking enabled. -/
def wManager : ManagerState :=
  { initialized := true, hasTracker := true, hasPersistence := true }

/-- Witness fixture: a fresh idle agent with the given step budget. -/
def wAgent (m : Nat) : AgentS :=
  { max_steps := m }

/-- Witness fixture: a step that finishes the agent on its first call. -/
def wStepFin : StepFn :=
  fun _ => Except.ok ("done", AgentState.FINISHED)

/-- Witness fixture: a step that returns text and leaves the state as it
found it. -/
def wStepKeep : StepFn :=
  fun ag => Except.ok ("ok", ag.state)

/-- Witness fixture: a step that raises. -/
def wStepFail : StepFn :=
  fun _ => Except.error "boom"

/-- Witness fixture: an interrupt latch raised from the start. -/
def wIntrOn : Nat → Bool := fun _ => true

/-- Witness fixture: an interrupt latch never raised. -/
def wIntrOff : Nat → Bool := fun _ => false

@[simp] theorem absorb_interrupted (intr : Nat → Bool) (t : Nat) (a : AgentS) :
    (absorb intr t a).interrupted = (a.interrupted || intr t) := rfl

@[simp] theorem absorb_max (intr : Nat → Bool) (t : Nat) (a : AgentS) :
    (absorb intr t a).max_steps = a.max_steps := rfl

@[simp] theorem absorb_cur (intr : Nat → Bool) (t : Nat) (a : AgentS) :
    (absorb intr t a).current_step = a.current_step := rfl

@[simp] theorem absorb_state (intr : Nat → Bool) (t : Nat) (a : AgentS) :
    (absorb intr t a).state = a.state := rfl

@[simp] theorem preAgent_interrupted (intr : Nat → Bool) (t : Nat) (a : AgentS) :
    (preAgent intr t a).interrupted = (a.interrupted || intr t) := rfl

@[simp] theorem preAgent_max (intr : Nat → Bool) (t : Nat) (a : AgentS) :
    (preAgent intr t a).max_steps = a.max_steps := rfl

@[simp] theorem preAgent_cur (intr : Nat → Bool) (t : Nat) (a : AgentS) :
    (preAgent intr t a).current_step = a.current_step + 1 := rfl

@[simp] theorem duringStep_interrupted (intr : Nat → Bool) (t : Nat) (a2 : AgentS) :
    (duringStep intr t a2).interrupted = ((a2.interrupted || intr (t + 1)) || intr (t + 2)) := rfl

@[simp] theorem duringStep_max (intr : Nat → Bool) (t : Nat) (a2 : AgentS) :
    (duringStep intr t a2).max_steps = a2.max_steps := rfl

@[simp] theorem duringStep_cur (intr : Nat → Bool) (t : Nat) (a2 : AgentS) :
    (duringStep intr t a2).current_step = a2.current_step := rfl

@[simp] theorem postStep_interrupted (intr : Nat → Bool) (t : Nat) (a2 : AgentS) (ns : AgentState) :
    (postStep intr t a2 ns).interrupted =
      (((a2.interrupted || intr (t + 1)) || intr (t + 2)) || intr (t + 3)) := rfl

@[simp] theorem postStep_max (intr : Nat → Bool) (t : Nat) (a2 : AgentS) (ns : AgentState) :
    (postStep intr t a2 ns).max_steps = a2.max_steps := rfl

@[simp] theorem postStep_cur (intr : Nat → Bool) (t : Nat) (a2 : AgentS) (ns : AgentState) :
    (postStep intr t a2 ns).current_step = a2.current_step := rfl

@[simp] theorem handleStuckState_interrupted (a : AgentS) :
    (handleStuckState a).interrupted = a.interrupted := rfl

@[simp] theorem handleStuckState_max (a : AgentS) :
    (handleStuckState a).max_steps = a.max_steps := rfl

@[simp] theorem handleStuckState_cur (a : AgentS) :
    (handleStuckState a).current_step = a.current_step := rfl

@[simp] theorem stuckAdjust_interrupted (b : AgentS) :
    (stuckAdjust b).interrupted = b.interrupted := by
  unfold stuckAdjust
  split <;> rfl

@[simp] theorem stuckAdjust_max (b : AgentS) :
    (stuckAdjust b).max_steps = b.max_steps := by
  unfold stuckAdjust
  split <;> rfl

@[simp] theorem stuckAdjust_cur (b : AgentS) :
    (stuckAdjust b).current_step = b.current_step := by
  unfold stuckAdjust
  split <;> rfl

@[simp] theorem updateMemoryUser_state (r : String) (a : AgentS) :
    (updateMemoryUser r a).state = a.state := rfl

@[simp] theorem updateMemoryUser_cur (r : String) (a : AgentS) :
    (updateMemoryUser r a).current_step = a.current_step := rfl

@[simp] theorem updateMemoryUser_max (r : String) (a : AgentS) :
    (updateMemoryUser r a).max_steps = a.max_steps := rfl

@[simp] theorem updateMemoryUser_interrupted (r : String) (a : AgentS) :
    (updateMemoryUser r a).interrupted = a.interrupted := rfl

@[simp] theorem setupAgent_state (req conv : Option String) (a : AgentS) :
    (setupAgent req conv a).state = a.state := by
  unfold setupAgent
  cases conv with
  | none =>
    cases req with
    | none => rfl
    | some r => by_cases hr : r = "" <;> simp [hr, updateMemoryUser]
  | some c =>
    cases req with
    | none => by_cases hc : c = "" <;> simp [hc]
    | some r => by_cases hc : c = "" <;> by_cases hr : r = "" <;> simp [hc, hr, updateMemoryUser]

@[simp] theorem setupAgent_cur (req conv : Option String) (a : AgentS) :
    (setupAgent req conv a).current_step = a.current_step := by
  unfold setupAgent
  cases conv with
  | none =>
    cases req with
    | none => rfl
    | some r => by_cases hr : r = "" <;> simp [hr, updateMemoryUser]
  | some c =>
    cases req with
    | none => by_cases hc : c = "" <;> simp [hc]
    | some r => by_cases hc : c = "" <;> by_cases hr : r = "" <;> simp [hc, hr, updateMemoryUser]

@[simp] theorem setupAgent_max (req conv : Option String) (a : AgentS) :
    (setupAgent req conv a).max_steps = a.max_steps := by
  unfold setupAgent
  cases conv with
  | none =>
    cases req with
    | none => rfl
    | some r => by_cases hr : r = "" <;> simp [hr, updateMemoryUser]
  | some c =>
    cases req with
    | none => by_cases hc : c = "" <;> simp [hc]
    | some r => by_cases hc : c = "" <;> by_cases hr : r = "" <;> simp [hc, hr, updateMemoryUser]

@[simp] theorem setupAgent_interrupted (req conv : Option String) (a : AgentS) :
    (setupAgent req conv a).interrupted = a.interrupted := by
  unfold setupAgent
  cases conv with
  | none =>
    cases req with
    | none => rfl
    | some r => by_cases hr : r = "" <;> simp [hr, updateMemoryUser]
  | some c =>
    cases req with
    | none => by_cases hc : c = "" <;> simp [hc]
    | some r => by_cases hc : c = "" <;> by_cases hr : r = "" <;> simp [hc, hr, updateMemoryUser]

theorem runLoop_keep (stepFn : StepFn) (intr : Nat → Bool) (fuel t : Nat) (a : AgentS)
    (h : a.interrupted = true) :
    runLoop stepFn intr fuel t a =
      { res := Except.ok (), agent := a, results := [], stepLog := [],
        stepTrace := [], stateLog := [], tickEnd := t } := by
  cases fuel with
  | zero => rfl
  | succ fuel => simp [runLoop, h]

theorem runLoop_inv (stepFn : StepFn) (intr : Nat → Bool) :
    ∀ fuel t a, (runLoop stepFn intr fuel t a).agent.max_steps = a.max_steps ∧
      (runLoop stepFn intr fuel t a).agent.current_step ≤ max a.current_step a.max_steps ∧
      ∀ n ∈ (runLoop stepFn intr fuel t a).stepTrace, n ≤ a.max_steps
  | 0, t, a => by simp [runLoop]
  | fuel + 1, t, a => by
    simp only [runLoop]
    split
    · next hcond =>
      obtain ⟨hlt, hfin, hni⟩ := hcond
      split
      · refine ⟨rfl, by simp; omega, ?_⟩
        intro n hn
        simp at hn
        omega
      · split
        · refine ⟨rfl, by simp; omega, ?_⟩
          intro n hn
          simp at hn
          omega
        · split
          · refine ⟨rfl, by simp; omega, ?_⟩
            intro n hn
            simp at hn
            omega
          · rename_i text newState hstepEq hpost
            obtain ⟨ih1, ih2, ih3⟩ := runLoop_inv stepFn intr fuel (t + 5)
              (stuckAdjust (absorb intr (t + 4) (postStep intr t (preAgent intr t a) newState)))
            refine ⟨by simpa using ih1, ?_, ?_⟩
            · simp at ih2 ⊢
              omega
            · intro n hn
              simp at hn
              rcases hn with hn | hn
              · omega
              · have := ih3 n (by simpa using hn)
                simpa using this
    · simp

theorem runLoop_latch (stepFn : StepFn) (intr : Nat → Bool) (t0 : Nat)
    (hMono : ∀ s t, s ≤ t → intr s = true → intr t = true) (hT : intr t0 = true) :
    ∀ fuel t a, a.interrupted = false → t ≤ t0 →
      t0 < (runLoop stepFn intr fuel t a).tickEnd →
      (runLoop stepFn intr fuel t a).agent.interrupted = true
  | 0, t, a => by
    intro hni hle hlt
    simp [runLoop] at hlt
    omega
  | fuel + 1, t, a => by
    intro hni hle hlt
    simp only [runLoop] at hlt ⊢
    split at hlt
    · next hcond =>
      rw [if_pos hcond]
      split at hlt
      · next hpre =>
        rw [if_pos hpre]
        exact hpre
      · next hpre =>
        rw [if_neg hpre]
        have hit : intr t = false := by
          simp [hni] at hpre
          exact hpre
        have htlt : t < t0 := by
          rcases Nat.lt_or_ge t t0 with h | h
          · exact h
          · have : t = t0 := le_antisymm hle h
            rw [this] at hit
            rw [hit] at hT
            cases hT
        split at hlt
        · next msg hstepEq =>
          simp at hlt ⊢
          have : intr (t + 3) = true := hMono t0 (t + 3) (by omega) hT
          simp [hni, this]
        · next text newState hstepEq =>
          split at hlt
          · next hpost =>
            rw [if_pos hpost]
            exact hpost
          · next hpost =>
            rw [if_neg hpost]
            simp only [postStep_interrupted, hni, Bool.false_or, Bool.or_eq_true,
              not_or, Bool.not_eq_true] at hpost
            obtain ⟨⟨hi1, hi2⟩, hi3⟩ := hpost
            by_cases hi4 : intr (t + 4) = true
            · have hkeep := runLoop_keep stepFn intr fuel (t + 5)
                (stuckAdjust (absorb intr (t + 4) (postStep intr t (preAgent intr t a) newState)))
                (by simp [hni, hit, hi1, hi2, hi3, hi4])
              simp only [hkeep]
              simp [hni, hit, hi1, hi2, hi3, hi4]
            · have hne : t + 5 ≤ t0 := by
                rcases Nat.lt_or_ge (t + 4) t0 with h | h
                · omega
                · have := hMono t0 (t + 4) h hT
                  rw [this] at hi4
                  simp at hi4
              have := runLoop_latch stepFn intr t0 hMono hT fuel (t + 5)
                (stuckAdjust (absorb intr (t + 4) (postStep intr t (preAgent intr t a) newState)))
                (by simp [hni, hit, hi1, hi2, hi3]; simpa using hi4)
                hne
              simp only at hlt
              exact this (by simpa using hlt)
    · next hcond =>
      rw [if_neg hcond]
      simp at hlt
      omega

theorem runLoop_steps (stepFn : StepFn) (intr : Nat → Bool) (t0 : Nat)
    (hMono : ∀ s t, s ≤ t → intr s = true → intr t = true) (hT : intr t0 = true) :
    ∀ fuel t a,
      ((runLoop stepFn intr fuel t a).stepLog.filter (fun p => decide (t0 ≤ p.1))).length ≤ 1
  | 0, t, a => by simp [runLoop]
  | fuel + 1, t, a => by
    simp only [runLoop]
    split
    · next hcond =>
      split
      · simp
      · next hpre =>
        have hit : intr t = false := by
          simp [hcond.2.2] at hpre
          exact hpre
        split
        · next msg hstepEq =>
          simp [List.length_filter_le]
          have := List.length_filter_le (fun p => decide (t0 ≤ p.1)) [(t + 2, a.current_step + 1)]
          simpa using this
        · next text newState hstepEq =>
          split
          · next hpost =>
            have := List.length_filter_le (fun p => decide (t0 ≤ p.1)) [(t + 2, a.current_step + 1)]
            simpa using this
          · next hpost =>
            simp only [postStep_interrupted, hcond.2.2, Bool.false_or, Bool.or_eq_true,
              not_or, Bool.not_eq_true] at hpost
            obtain ⟨⟨hi1, hi2⟩, hi3⟩ := hpost
            have hgt : ¬ (t0 ≤ t + 2) := by
              intro hcontra
              have := hMono t0 (t + 3) (by omega) hT
              rw [this] at hi3
              cases hi3
            simp only [List.filter_cons, decide_eq_true_eq]
            rw [if_neg (by simpa using hgt)]
            exact runLoop_steps stepFn intr t0 hMono hT fuel (t + 5) _
    · simp

theorem truthyOpt_ne_empty (o : Option String) (r : String)
    (h : truthyOpt o = some r) : r ≠ "" := by
  cases o with
  | none => simp [truthyOpt] at h
  | some s =>
    simp only [truthyOpt] at h
    by_cases hs : s = ""
    · simp [hs] at h
    · simp [hs] at h
      subst h
      exact hs

theorem track_root_isSome (db : List Record) (e : Event) :
    (trackEventRelations db e).root_event_id.isSome = true := by
  unfold trackEventRelations
  cases e.parent_events with
  | nil => simp
  | cons p ps =>
    by_cases h : findRootEvent db p = "" <;> simp [h]

theorem getLast?_append_single {α : Type} (xs : List α) (x : α) :
    (xs ++ [x]).getLast? = some x := by
  induction xs with
  | nil => rfl
  | cons y ys ih => simp [List.getLast?_cons, ih]

theorem runMain_inv (stepFn : StepFn) (intr : Nat → Bool)
    (req conv : Option String) (a : AgentS) :
    (runMain stepFn intr req conv a).agent.max_steps = a.max_steps ∧
    (runMain stepFn intr req conv a).agent.current_step ≤ max a.current_step a.max_steps ∧
    ∀ n ∈ (runMain stepFn intr req conv a).stepTrace, n ≤ a.max_steps := by
  have h := runLoop_inv stepFn intr
    ((setupAgent req conv a).max_steps - (setupAgent req conv a).current_step) 0
    { setupAgent req conv a with state := AgentState.RUNNING }
  unfold runMain
  refine ⟨by simpa using h.1, by simpa using h.2.1, ?_⟩
  intro n hn
  simpa using h.2.2 n hn

theorem runAgent_state_eq (stepFn : StepFn) (intr : Nat → Bool)
    (req conv : Option String) (a : AgentS) (hIdle : a.state = AgentState.IDLE) :
    (runAgent stepFn intr req conv a).agent.state = a.state := by
  unfold runAgent
  rw [if_neg (by simp [hIdle])]
  cases hres : (runMain stepFn intr req conv a).res with
  | error msg => simp [hres]
  | ok u =>
    simp only [hres]
    split
    · simp
    · split <;> simp

theorem runAgent_loop_proj (stepFn : StepFn) (intr : Nat → Bool)
    (req conv : Option String) (a : AgentS) (hIdle : a.state = AgentState.IDLE) :
    (runAgent stepFn intr req conv a).tickEnd = (runMain stepFn intr req conv a).tickEnd ∧
    (runAgent stepFn intr req conv a).stepLog = (runMain stepFn intr req conv a).stepLog ∧
    (runAgent stepFn intr req conv a).agent.interrupted =
      (runMain stepFn intr req conv a).agent.interrupted := by
  unfold runAgent
  rw [if_neg (by simp [hIdle])]
  cases hres : (runMain stepFn intr req conv a).res with
  | error msg => simp [hres]
  | ok u =>
    simp only [hres]
    split
    · simp
    · split <;> simp

/-- Claim C1: in `_process_event`, if no registered handler matches the
event type the terminal status is `completed`; if at least one matched
handler returns success the status is `completed` even when every other
handler raises; if every matched handler fails or raises the status is
`failed`; and the invoked handlers are exactly the matched ones — one
handler raising never prevents the remaining matched handlers from being
invoked. -/
theorem c1_process_event_terminal_status
    (s : BusState) (behave : String → HandlerOutcome) (e : Event) :
    (processEvent behave e s).invoked = handlersForEvent s e ∧
    (handlersForEvent s e = [] →
      (processEvent behave e s).event.status = EventStatus.COMPLETED) ∧
    (∀ h, h ∈ handlersForEvent s e → behave h.name = HandlerOutcome.returned true →
      (processEvent behave e s).event.status = EventStatus.COMPLETED) ∧
    (handlersForEvent s e ≠ [] →
      (∀ h, h ∈ handlersForEvent s e → behave h.name ≠ HandlerOutcome.returned true) →
      (processEvent behave e s).event.status = EventStatus.FAILED) := by
  unfold processEvent
  cases hm : handlersForEvent s e with
  | nil =>
    simp [markCompleted]
  | cons h0 hs0 =>
    refine ⟨rfl, by simp, ?_, ?_⟩
    · intro h hmem hb
      have hpos : 0 < ((h0 :: hs0).map (fun h => behave h.name)).countP
          (fun r => r == HandlerOutcome.returned true) := by
        rw [List.countP_pos_iff]
        exact ⟨behave h.name, List.mem_map_of_mem _ (hm ▸ hmem), by simp [hb]⟩
      dsimp only
      rw [if_pos hpos]
      simp [markCompleted]
    · intro _ hall
      have hzero : ((h0 :: hs0).map (fun h => behave h.name)).countP
          (fun r => r == HandlerOutcome.returned true) = 0 := by
        rw [List.countP_eq_zero]
        intro b hb
        rcases List.mem_map.mp hb with ⟨h, hmem, hbe⟩
        subst hbe
        simpa using hall h (hm ▸ hmem)
      dsimp only
      rw [if_neg (by omega)]
      simp [markFailed]

/-- Witness for C1: on a bus with one wildcard handler whose invocation
succeeds, the event completes. -/
theorem c1_process_event_terminal_status_witness :
    wHandler ∈ handlersForEvent wBus wEvent1 ∧
    (processEvent (fun _ => HandlerOutcome.returned true) wEvent1 wBus).event.status =
      EventStatus.COMPLETED :=
  ⟨by decide,
    (c1_process_event_terminal_status wBus (fun _ => HandlerOutcome.returned true)
      wEvent1).2.2.1 wHandler (by decide) rfl⟩

/-- Claim C2: once the shutdown flag is set, `publish` returns `false`
and leaves the bus unchanged — the event enters neither the active set
nor the dispatch queue, so no handler is ever invoked with it;
`shutdown()` sets the flag, and no bus operation (publish, subscribe,
unsubscribe, `_process_event`) ever clears it, so this holds for every
publish after `shutdown()`. -/
theorem c2_publish_after_shutdown (s s0 s' : BusState) (e e' : Event) (h : Handler)
    (n : String) (behave : String → HandlerOutcome)
    (hsd : s.shutdownFlag = true)
    (hA : e.event_id ∉ s.active_events.map Prod.fst)
    (hS : e ∉ s.scheduled) :
    (publishBus e s).1 = false ∧
    (publishBus e s).2 = s ∧
    e.event_id ∉ (publishBus e s).2.active_events.map Prod.fst ∧
    e ∉ (publishBus e s).2.scheduled ∧
    (shutdownBus s0).shutdownFlag = true ∧
    ((publishBus e' s').2.shutdownFlag = s'.shutdownFlag) ∧
    ((subscribeBus h s').2.shutdownFlag = s'.shutdownFlag) ∧
    ((unsubscribeBus n s').2.shutdownFlag = s'.shutdownFlag) ∧
    ((processEvent behave e' s').bus.shutdownFlag = s'.shutdownFlag) := by
  refine ⟨by simp [publishBus, hsd], by simp [publishBus, hsd], ?_, ?_, rfl, ?_, rfl, ?_, ?_⟩
  · simpa [publishBus, hsd] using hA
  · simpa [publishBus, hsd] using hS
  · by_cases hf : s'.shutdownFlag = true <;> simp [publishBus, hf]
  · by_cases hex : s'.handlers.any (fun g => g.name == n) = true <;> simp [unsubscribeBus, hex]
  · unfold processEvent
    cases handlersForEvent s' e' with
    | nil => simp [addToHistory]
    | cons h0 hs0 => simp [addToHistory]

/-- Witness for C2: publishing a fresh event to a just-shut-down bus is
rejected and the bus state is untouched. -/
theorem c2_publish_after_shutdown_witness :
    (shutdownBus wBus).shutdownFlag = true ∧
    (publishBus wEvent1 (shutdownBus wBus)).1 = false ∧
    (publishBus wEvent1 (shutdownBus wBus)).2 = shutdownBus wBus :=
  ⟨rfl,
    (c2_publish_after_shutdown (shutdownBus wBus) wBus wBus wEvent1 wEvent2 wHandler
      "logging_handler" (fun _ => HandlerOutcome.raised) rfl (by decide) (by decide)).1,
    (c2_publish_after_shutdown (shutdownBus wBus) wBus wBus wEvent1 wEvent2 wHandler
      "logging_handler" (fun _ => HandlerOutcome.raised) rfl (by decide) (by decide)).2.1⟩

/-- Claim C3: `store_event` is idempotent.  Storing an event into a store
with no record under its id succeeds; storing a second event carrying the
same `event_id` again returns success (the duplicate-key commit error is
reported as success), leaves the store unchanged, and exactly one record
with that id results. -/
theorem c3_store_event_idempotent (e e' : Event) (db : List Record)
    (hid : e'.event_id = e.event_id)
    (hfresh : hasRecord db e.event_id = false) :
    (storeEvent e db).1 = true ∧
    (storeEvent e' (storeEvent e db).2).1 = true ∧
    (storeEvent e' (storeEvent e db).2).2 = (storeEvent e db).2 ∧
    ((storeEvent e' (storeEvent e db).2).2.countP (fun r => r.id == e.event_id)) = 1 := by
  have h2 : hasRecord (toRecord e :: db) e'.event_id = true := by
    simp [hasRecord, toRecord, hid]
  have hc : db.countP (fun r => r.id == e.event_id) = 0 := by
    rw [List.countP_eq_zero]
    intro r hr
    simp only [hasRecord, List.any_eq_false] at hfresh
    exact hfresh r hr
  have hp : ((toRecord e).id == e.event_id) = true := by
    simp [toRecord]
  simp [storeEvent, hfresh, h2, List.countP_cons, hc, hp]

/-- Witness for C3: storing the same event id twice into an empty store
leaves exactly one record and both calls succeed. -/
theorem c3_store_event_idempotent_witness :
    wEvent2.event_id = wEvent1.event_id ∧
    hasRecord [] wEvent1.event_id = false ∧
    (storeEvent wEvent2 (storeEvent wEvent1 []).2).1 = true ∧
    ((storeEvent wEvent2 (storeEvent wEvent1 []).2).2.countP
      (fun r => r.id == wEvent1.event_id)) = 1 :=
  ⟨rfl, rfl,
    (c3_store_event_idempotent wEvent1 wEvent2 [] rfl rfl).2.1,
    (c3_store_event_idempotent wEvent1 wEvent2 [] rfl rfl).2.2.2⟩

/-- Claim C4: `track_event_relations` root assignment.  A parentless
event becomes its own root, and `get_event_chain` on a store holding just
that tracked event returns exactly that one event.  An event with parents
gets the resolved root of its first parent when the resolution finds one
(here: the stored first parent carries a root), and the first parent id
itself when the parent is not stored. -/
theorem c4_track_event_relations_roots (db : List Record) (e : Event) :
    (e.parent_events = [] →
      (trackEventRelations db e).root_event_id = some e.event_id ∧
      (e.event_id ≠ "" →
        (getEventChain e.event_id [toRecord (trackEventRelations db e)]).map Event.event_id
          = [e.event_id])) ∧
    (∀ p ps, e.parent_events = p :: ps →
      (getEventP db p = none → (trackEventRelations db e).root_event_id = some p) ∧
      (∀ pe r, getEventP db p = some pe → pe.root_event_id = some r → p ≠ "" →
        (trackEventRelations db e).root_event_id = some r)) := by
  constructor
  · intro hpar
    constructor
    · simp [trackEventRelations, hpar]
    · intro hne
      simp [trackEventRelations, hpar, getEventChain, getEventP, getRecord, toRecord,
        modelToEvent, truthyOpt, hne, buildEventChain, insertByTime]
  · intro p ps hpar
    constructor
    · intro hnone
      by_cases hp : p = ""
      · simp [trackEventRelations, hpar, findRootEvent, findRootGo, hp]
      · simp [trackEventRelations, hpar, findRootEvent, findRootGo, hp, hnone]
    · intro pe r hpe hroot hp
      have hr : r ≠ "" := by
        rcases (Option.map_eq_some'.mp hpe) with ⟨rec, hfind, hconv⟩
        have : truthyOpt rec.root_event_id = some r := by
          rw [← hconv] at hroot
          simpa [modelToEvent] using hroot
        exact truthyOpt_ne_empty _ _ this
      simp [trackEventRelations, hpar, findRootEvent, findRootGo, hp, hpe, hroot, hr]

/-- Witness for C4: tracking a parentless event makes it its own root and
its chain is that single event; tracking a child whose parent is not
stored roots it at the parent id. -/
theorem c4_track_event_relations_roots_witness :
    wParent.parent_events = [] ∧
    (trackEventRelations [] wParent).root_event_id = some "p1" ∧
    (getEventChain "p1" [toRecord (trackEventRelations [] wParent)]).map Event.event_id
      = ["p1"] ∧
    (trackEventRelations [] wChild).root_event_id = some "p1" :=
  ⟨rfl,
    ((c4_track_event_relations_roots [] wParent).1 rfl).1,
    ((c4_track_event_relations_roots [] wParent).1 rfl).2 (by decide),
    ((c4_track_event_relations_roots [] wChild).2 "p1" [] rfl).1 rfl⟩

/-- Claim C9: `EventBusManager.publish` tracks lineage before bus
publication and persists only events the bus admitted; hence every event
persisted through this path already carries a resolved (non-`None`)
`root_event_id` when it is stored.  With tracker and persistence enabled:
a rejected event changes nothing in the store; an admitted event is the
tracked event both on the bus dispatch queue and in the store, and every
record new to the store is its projection, root resolved. -/
theorem c9_manager_publish_order (m : ManagerState) (e : Event)
    (hInit : m.initialized = true) (hTr : m.hasTracker = true) (hPe : m.hasPersistence = true) :
    ((managerPublish e m).1 = false → (managerPublish e m).2.store = m.store) ∧
    ((managerPublish e m).1 = true →
      (managerPublish e m).2.store = (storeEvent (trackEventRelations m.store e) m.store).2 ∧
      (managerPublish e m).2.bus.scheduled = m.bus.scheduled ++ [trackEventRelations m.store e] ∧
      (trackEventRelations m.store e).root_event_id.isSome = true) ∧
    ((managerPublish e m).1 = true →
      ∀ r ∈ (managerPublish e m).2.store, r ∉ m.store →
        r = toRecord (trackEventRelations m.store e) ∧ r.root_event_id.isSome = true) := by
  by_cases hsd : m.bus.shutdownFlag = true
  · simp [managerPublish, hInit, hTr, hPe, publishBus, hsd]
  · simp only [Bool.not_eq_true] at hsd
    refine ⟨?_, ?_, ?_⟩
    · intro h
      simp [managerPublish, hInit, hTr, hPe, publishBus, hsd] at h
    · intro _
      simp [managerPublish, hInit, hTr, hPe, publishBus, hsd, track_root_isSome]
    · intro _
      intro r hr hnotin
      simp [managerPublish, hInit, hTr, hPe, publishBus, hsd] at hr
      by_cases hdup : hasRecord m.store (trackEventRelations m.store e).event_id = true
      · simp [storeEvent, hdup] at hr
        exact absurd hr hnotin
      · simp only [Bool.not_eq_true] at hdup
        simp [storeEvent, hdup] at hr
        cases hr with
        | inl h => exact ⟨h, by simp [h, toRecord, track_root_isSome]⟩
        | inr h => exact absurd h hnotin

/-- Witness for C9: publishing a fresh event through an initialized
manager with tracking and persistence succeeds and the tracked event
carries a resolved root. -/
theorem c9_manager_publish_order_witness :
    wManager.initialized = true ∧
    (managerPublish wEvent1 wManager).1 = true ∧
    (managerPublish wEvent1 wManager).2.store =
      (storeEvent (trackEventRelations wManager.store wEvent1) wManager.store).2 ∧
    (trackEventRelations wManager.store wEvent1).root_event_id.isSome = true :=
  ⟨rfl, rfl,
    ((c9_manager_publish_order wManager wEvent1 rfl rfl rfl).2.1 rfl).1,
    ((c9_manager_publish_order wManager wEvent1 rfl rfl rfl).2.1 rfl).2.2⟩

/-- Claim C5: the `RUNNING` scope of `run()` is a scoped transition.  For
every execution entered from `IDLE`: when the body raises, the
except-branch assigns `ERROR` before the exception leaves the scope (the
assignment trace ends `[..., ERROR, previous]`), and the final state —
as on every normal scope exit — is the state that was current before
entry, restored by the finally-branch. -/
theorem c5_running_scope_error_and_revert (stepFn : StepFn) (intr : Nat → Bool)
    (req conv : Option String) (a : AgentS)
    (hIdle : a.state = AgentState.IDLE) :
    (runAgent stepFn intr req conv a).agent.state = a.state ∧
    ∀ msg, (runAgent stepFn intr req conv a).res = Except.error msg →
      ∃ pre, (runAgent stepFn intr req conv a).stateTrace = pre ++ [AgentState.ERROR, a.state] := by
  refine ⟨runAgent_state_eq stepFn intr req conv a hIdle, ?_⟩
  intro msg hres
  unfold runAgent at hres ⊢
  rw [if_neg (by simp [hIdle])] at hres ⊢
  cases hE : (runMain stepFn intr req conv a).res with
  | error m =>
    simp only [hE] at hres ⊢
    exact ⟨AgentState.RUNNING :: (runMain stepFn intr req conv a).stateLog, by simp⟩
  | ok u =>
    simp only [hE] at hres
    split at hres
    · simp at hres
    · split at hres <;> simp at hres

/-- Witness for C5: a step that raises leaves the agent back in its
pre-entry state and the assignment trace ends with `ERROR` then the
previous state. -/
theorem c5_running_scope_error_and_revert_witness :
    (wAgent 2).state = AgentState.IDLE ∧
    (runAgent wStepFail wIntrOff none none (wAgent 2)).agent.state = (wAgent 2).state ∧
    (∃ pre, (runAgent wStepFail wIntrOff none none (wAgent 2)).stateTrace =
      pre ++ [AgentState.ERROR, (wAgent 2).state]) :=
  ⟨rfl,
    (c5_running_scope_error_and_revert wStepFail wIntrOff none none (wAgent 2) rfl).1,
    (c5_running_scope_error_and_revert wStepFail wIntrOff none none (wAgent 2) rfl).2
      "boom" rfl⟩

/-- Counterexample to C6 as stated: `run("hi")` with `max_steps = 1` and
a step that sets `FINISHED` on its first call returns a summary with an
extra trailing `Terminated: Reached max steps (1)` line after the single
`Step 1: ...` line, and the agent state after `run()` is `IDLE`, not
`FINISHED` — the step-budget branch fires because `current_step` reached
`max_steps`, and the scope finally-branch restores the pre-entry state. -/
theorem c6_finished_scenario_counterexample :
    (runAgent wStepFin wIntrOff (some "hi") none (wAgent 1)).res =
      Except.ok "Step 1: done\nTerminated: Reached max steps (1)" ∧
    (runAgent wStepFin wIntrOff (some "hi") none (wAgent 1)).results =
      ["Step 1: done", "Terminated: Reached max steps (1)"] ∧
    (runAgent wStepFin wIntrOff (some "hi") none (wAgent 1)).agent.state = AgentState.IDLE ∧
    (runAgent wStepFin wIntrOff (some "hi") none (wAgent 1)).agent.state ≠ AgentState.FINISHED := by
  refine ⟨rfl, rfl, rfl, by decide⟩

/-- Claim C6 as amended: for `run("hi")` with `max_steps = 1` and a step
that sets `FINISHED` on its first call returning any text, the result
lines are exactly the one `Step 1: ...` line followed by the trailing
`Terminated: Reached max steps (1)` line (the step-budget branch fires
since `current_step` equals `max_steps`), the exit is the budget exit,
and after `run()` returns the agent state is `IDLE` — the `RUNNING`
scope restores the pre-entry state, so `FINISHED` does not survive. -/
theorem c6_finished_scenario_amended (txt : String) :
    (runAgent (fun _ => Except.ok (txt, AgentState.FINISHED)) wIntrOff
        (some "hi") none (wAgent 1)).results =
      ["Step 1: " ++ txt, "Terminated: Reached max steps (1)"] ∧
    (runAgent (fun _ => Except.ok (txt, AgentState.FINISHED)) wIntrOff
        (some "hi") none (wAgent 1)).agent.state = AgentState.IDLE ∧
    (runAgent (fun _ => Except.ok (txt, AgentState.FINISHED)) wIntrOff
        (some "hi") none (wAgent 1)).exit = ExitKind.budget := by
  have hres : (runMain (fun _ => Except.ok (txt, AgentState.FINISHED)) wIntrOff
      (some "hi") none (wAgent 1)).res = Except.ok () := rfl
  have hint : (runMain (fun _ => Except.ok (txt, AgentState.FINISHED)) wIntrOff
      (some "hi") none (wAgent 1)).agent.interrupted = false := rfl
  have hmax : (runMain (fun _ => Except.ok (txt, AgentState.FINISHED)) wIntrOff
      (some "hi") none (wAgent 1)).agent.max_steps = 1 := rfl
  have hcur : (runMain (fun _ => Except.ok (txt, AgentState.FINISHED)) wIntrOff
      (some "hi") none (wAgent 1)).agent.current_step = 1 := rfl
  have hR : (runMain (fun _ => Except.ok (txt, AgentState.FINISHED)) wIntrOff
      (some "hi") none (wAgent 1)).results = ["Step 1: " ++ txt] := rfl
  unfold runAgent
  rw [if_neg (by simp [wAgent])]
  simp only [hres]
  rw [if_neg (by simp [hint])]
  rw [if_pos (by rw [hmax, hcur])]
  simp only [hmax, hR]
  simp
  exact ⟨rfl, rfl⟩

/-- Claim C7: throughout every `run()` started idle with a zeroed step
counter, every value assigned to `current_step` stays within `max_steps`
(so the counter never exceeds the budget mid-run), the final counter is
within the budget, and when the loop exits through the step-budget branch
the counter is reset to 0 and the state is `IDLE` on return. -/
theorem c7_step_budget_invariant (stepFn : StepFn) (intr : Nat → Bool)
    (req conv : Option String) (a : AgentS)
    (hIdle : a.state = AgentState.IDLE) (h0 : a.current_step = 0) :
    (∀ n ∈ (runAgent stepFn intr req conv a).stepTrace, n ≤ a.max_steps) ∧
    (runAgent stepFn intr req conv a).agent.current_step ≤ a.max_steps ∧
    ((runAgent stepFn intr req conv a).exit = ExitKind.budget →
      (runAgent stepFn intr req conv a).agent.current_step = 0 ∧
      (runAgent stepFn intr req conv a).agent.state = AgentState.IDLE) := by
  obtain ⟨hm, hc, ht⟩ := runMain_inv stepFn intr req conv a
  rw [h0] at hc
  simp only [Nat.max_eq_right (Nat.zero_le _)] at hc
  unfold runAgent
  rw [if_neg (by simp [hIdle])]
  cases hE : (runMain stepFn intr req conv a).res with
  | error m =>
    simp only [hE]
    exact ⟨ht, hc, by simp⟩
  | ok u =>
    simp only [hE]
    split
    · refine ⟨?_, by simp, by simp⟩
      intro n hn
      simp at hn
      rcases hn with hn | hn
      · exact ht n hn
      · omega
    · split
      · refine ⟨?_, by simp, by simp [hIdle]⟩
        intro n hn
        simp at hn
        rcases hn with hn | hn
        · exact ht n hn
        · omega
      · exact ⟨ht, hc, by simp⟩

/-- Witness for C7: a two-step budget run that exhausts its budget ends
with the counter reset to 0 and the state `IDLE`. -/
theorem c7_step_budget_invariant_witness :
    (wAgent 2).state = AgentState.IDLE ∧ (wAgent 2).current_step = 0 ∧
    (runAgent wStepKeep wIntrOff none none (wAgent 2)).exit = ExitKind.budget ∧
    (runAgent wStepKeep wIntrOff none none (wAgent 2)).agent.current_step = 0 ∧
    (runAgent wStepKeep wIntrOff none none (wAgent 2)).agent.state = AgentState.IDLE :=
  ⟨rfl, rfl, rfl,
    ((c7_step_budget_invariant wStepKeep wIntrOff none none (wAgent 2) rfl rfl).2.2 rfl).1,
    ((c7_step_budget_invariant wStepKeep wIntrOff none none (wAgent 2) rfl rfl).2.2 rfl).2⟩

/-- Claim C8: if `interrupt()` raises the one-way latch while `run()` is
looping (the signal `intr` is monotone and is up at some tick `t0`
before the loop stopped ticking), then at most one further `step()`
executes at or after `t0` (the latch is checked both before and after
each step); when `run()` returns normally its summary lines end with
`Execution interrupted by user`, the step counter is reset to 0 and the
state to `IDLE`; the latch itself is still set when `run()` terminates,
and only `reset_interrupt()` clears it, while `interrupt()` sets it. -/
theorem c8_interrupt_latch (stepFn : StepFn) (intr : Nat → Bool)
    (req conv : Option String) (a : AgentS) (t0 : Nat)
    (hMono : ∀ s t, s ≤ t → intr s = true → intr t = true)
    (hT : intr t0 = true)
    (hIdle : a.state = AgentState.IDLE)
    (hNI : a.interrupted = false)
    (hIn : t0 < (runAgent stepFn intr req conv a).tickEnd) :
    ((runAgent stepFn intr req conv a).stepLog.filter (fun p => decide (t0 ≤ p.1))).length ≤ 1 ∧
    (∀ s, (runAgent stepFn intr req conv a).res = Except.ok s →
      (runAgent stepFn intr req conv a).results.getLast? = some "Execution interrupted by user" ∧
      (runAgent stepFn intr req conv a).agent.current_step = 0 ∧
      (runAgent stepFn intr req conv a).agent.state = AgentState.IDLE) ∧
    (runAgent stepFn intr req conv a).agent.interrupted = true ∧
    (resetInterrupt (runAgent stepFn intr req conv a).agent).interrupted = false ∧
    (interruptAgent a).interrupted = true := by
  obtain ⟨hpT, hpL, hpI⟩ := runAgent_loop_proj stepFn intr req conv a hIdle
  have hIn2 : t0 < (runMain stepFn intr req conv a).tickEnd := by rw [← hpT]; exact hIn
  have hlatch : (runMain stepFn intr req conv a).agent.interrupted = true := by
    refine runLoop_latch stepFn intr t0 hMono hT _ 0 _ (by simp [hNI]) (Nat.zero_le t0) ?_
    simpa [runMain] using hIn2
  have hsteps : (((runMain stepFn intr req conv a).stepLog.filter
      (fun p => decide (t0 ≤ p.1))).length ≤ 1) := by
    have := runLoop_steps stepFn intr t0 hMono hT
      ((setupAgent req conv a).max_steps - (setupAgent req conv a).current_step) 0
      { setupAgent req conv a with state := AgentState.RUNNING }
    simpa [runMain] using this
  refine ⟨by rw [hpL]; exact hsteps, ?_, by rw [hpI]; exact hlatch, rfl, rfl⟩
  intro s hres
  unfold runAgent at hres ⊢
  rw [if_neg (by simp [hIdle])] at hres ⊢
  cases hE : (runMain stepFn intr req conv a).res with
  | error m => simp [hE] at hres
  | ok u =>
    simp only [hE] at hres ⊢
    rw [if_pos hlatch] at hres ⊢
    refine ⟨?_, by simp, by simp [hIdle]⟩
    simp only
    exact getLast?_append_single _ _

/-- Witness for C8: with the latch up from tick 0, the loop runs no step,
the summary ends with the interruption line, and the latch survives until
`reset_interrupt()`. -/
theorem c8_interrupt_latch_witness :
    wIntrOn 0 = true ∧
    (0 < (runAgent wStepKeep wIntrOn none none (wAgent 3)).tickEnd) ∧
    (((runAgent wStepKeep wIntrOn none none (wAgent 3)).stepLog.filter
      (fun p => decide (0 ≤ p.1))).length ≤ 1) ∧
    (runAgent wStepKeep wIntrOn none none (wAgent 3)).results.getLast? =
      some "Execution interrupted by user" ∧
    (runAgent wStepKeep wIntrOn none none (wAgent 3)).agent.interrupted = true :=
  ⟨rfl, by decide,
    (c8_interrupt_latch wStepKeep wIntrOn none none (wAgent 3) 0
      (fun _ _ _ h => h) rfl rfl rfl (by decide)).1,
    ((c8_interrupt_latch wStepKeep wIntrOn none none (wAgent 3) 0
      (fun _ _ _ h => h) rfl rfl rfl (by decide)).2.1
      "Interrupted at step 1\nExecution interrupted by user" rfl).1,
    (c8_interrupt_latch wStepKeep wIntrOn none none (wAgent 3) 0
      (fun _ _ _ h => h) rfl rfl rfl (by decide)).2.2.1⟩

/-- Claim C10: whenever `run()` is entered from `IDLE`, the agent state
after `run()` terminates equals the entry state `IDLE`, whether the run
returned normally or propagated an exception — the `RUNNING` scope
unconditionally restores the previous state in its finally-branch, so no
`ERROR` or `FINISHED` assigned inside the scope survives. -/
theorem c10_state_restored_on_termination (stepFn : StepFn) (intr : Nat → Bool)
    (req conv : Option String) (a : AgentS)
    (hIdle : a.state = AgentState.IDLE) :
    (runAgent stepFn intr req conv a).agent.state = AgentState.IDLE := by
  rw [runAgent_state_eq stepFn intr req conv a hIdle, hIdle]

/-- Witness for C10: even a raising step leaves the agent `IDLE` after
`run()` terminates. -/
theorem c10_state_restored_on_termination_witness :
    (wAgent 2).state = AgentState.IDLE ∧
    (runAgent wStepFail wIntrOff none none (wAgent 2)).agent.state = AgentState.IDLE :=
  ⟨rfl, c10_state_restored_on_termination wStepFail wIntrOff none none (wAgent 2) rfl⟩
